import Mathlib

/-!
# Verification of `transcribe_audio.py`

A shallow embedding of the one-file transcription utility: the clip
extractor (`extract_first_60_seconds`), the transcript formatter
(`convert_to_json_format`), the JSON writer, and the orchestrating
`main`, together with theorems settling the specification's claims.

Timestamps are modelled as rationals: the Python code only copies them,
never computes with them, so any ordered field is a faithful carrier.
External effects (ffmpeg invocations, the Whisper engine, file opening
and writing) are supplied by an oracle `World`, and `main` is a pure
function of that oracle and the initial filesystem state.
-/

/-- A word entry of the raw engine result, modelling the Python dict
`{"word": ..., "start": ..., "end": ...}` with every key present. -/
structure WordInfo where
  word : String
  start : ℚ
  end_ : ℚ
deriving DecidableEq

/-- A segment of the raw engine result with its `words` list present. -/
structure Segment where
  words : List WordInfo
deriving DecidableEq

/-- A raw engine result with its `segments` list present. -/
structure WhisperResult where
  segments : List Segment
deriving DecidableEq

/-- A word entry as a Python dict: each key may be absent. -/
structure PyWordInfo where
  word : Option String
  start : Option ℚ
  end_ : Option ℚ
deriving DecidableEq

/-- A segment as a Python dict: the `words` key may be absent. -/
structure PySegment where
  words : Option (List PyWordInfo)
deriving DecidableEq

/-- The engine result as a Python dict: the `segments` key may be absent. -/
structure PyResult where
  segments : Option (List PySegment)
deriving DecidableEq

/-- A Word record of the output Transcript. -/
structure Word where
  word : String
  start : ℚ
  end_ : ℚ
deriving DecidableEq

/-- The output Transcript: an ordered list of Word records. -/
structure Transcript where
  words : List Word
deriving DecidableEq

/-- Python's `str.strip()` with no argument: remove leading and trailing
whitespace characters (modelled by `Char.isWhitespace`). -/
def pyStrip (s : String) : String :=
  ⟨((s.data.dropWhile Char.isWhitespace).reverse.dropWhile Char.isWhitespace).reverse⟩

/-- Python subscript lookup `d[k]`: raises `KeyError: k` when the key is
absent. -/
def getKey (o : Option α) (k : String) : Except String α :=
  match o with
  | some v => .ok v
  | none => .error ("KeyError: " ++ k)

/-- One iteration of the inner loop of `convert_to_json_format`
(lines 82–87): `word_info["word"].strip()`, `word_info["start"]`,
`word_info["end"]`; a missing key raises. -/
def convertWord (wi : PyWordInfo) : Except String Word := do
  let w ← getKey wi.word "word"
  let s ← getKey wi.start "start"
  let e ← getKey wi.end_ "end"
  pure ⟨pyStrip w, s, e⟩

/-- The inner loop over `segment.get("words", [])`, in order, appending
each converted record. -/
def convertWords : List PyWordInfo → Except String (List Word)
  | [] => .ok []
  | wi :: rest => do
      let w ← convertWord wi
      let ws ← convertWords rest
      pure (w :: ws)

/-- The outer loop over `whisper_result.get("segments", [])`, in order;
each segment contributes its converted words in order. -/
def convertSegs : List PySegment → Except String (List Word)
  | [] => .ok []
  | seg :: rest => do
      let ws ← convertWords (seg.words.getD [])
      let rest' ← convertSegs rest
      pure (ws ++ rest')

/-- Shallow embedding of `convert_to_json_format` (lines 77–89): flattens
`result.get("segments", [])` via the two nested loops into `{"words": words}`.
A missing `"segments"` or `"words"` key defaults to the empty list; a word
entry missing `"word"`, `"start"` or `"end"` raises `KeyError`. -/
def convert_to_json_format (r : PyResult) : Except String Transcript :=
  (convertSegs (r.segments.getD [])).map Transcript.mk

/-- Injection of a fully-keyed word entry into the dict model. -/
def WordInfo.toPy (w : WordInfo) : PyWordInfo :=
  ⟨some w.word, some w.start, some w.end_⟩

/-- Injection of a fully-keyed segment into the dict model. -/
def Segment.toPy (s : Segment) : PySegment :=
  ⟨some (s.words.map WordInfo.toPy)⟩

/-- Injection of a fully-keyed engine result into the dict model. -/
def WhisperResult.toPy (r : WhisperResult) : PyResult :=
  ⟨some (r.segments.map Segment.toPy)⟩

/-- The Transcript exactly as the spec's Formatter contract words it:
flatten every segment's word list into a single ordered sequence, in
encounter order, trimming surrounding whitespace from each word's text
and copying `start`/`end` unchanged. -/
def specFormat (r : WhisperResult) : Transcript :=
  ⟨((r.segments.map Segment.words).flatten).map
    (fun w => ⟨pyStrip w.word, w.start, w.end_⟩)⟩

theorem convertWords_toPy (ws : List WordInfo) :
    convertWords (ws.map WordInfo.toPy) =
      .ok (ws.map fun w => ⟨pyStrip w.word, w.start, w.end_⟩) := by
  induction ws with
  | nil => rfl
  | cons w rest ih =>
      simp [convertWords, convertWord, WordInfo.toPy, getKey, ih, Bind.bind, Except.bind, Pure.pure, Except.pure]

theorem convertSegs_toPy (segs : List Segment) :
    convertSegs (segs.map Segment.toPy) =
      .ok (((segs.map Segment.words).flatten).map
        fun w => ⟨pyStrip w.word, w.start, w.end_⟩) := by
  induction segs with
  | nil => rfl
  | cons s rest ih =>
      simp [convertSegs, Segment.toPy, convertWords_toPy, ih, Bind.bind, Except.bind, Pure.pure, Except.pure]

/-- On a fully-keyed result the formatter computes exactly the spec's
flatten-and-trim Transcript. -/
theorem convert_toPy_eq (r : WhisperResult) :
    convert_to_json_format r.toPy = .ok (specFormat r) := by
  simp [convert_to_json_format, WhisperResult.toPy, convertSegs_toPy,
    specFormat, Except.map]

/-- Result of one external command invocation: process exit code and
captured standard error. -/
structure CmdResult where
  returncode : Int
  stderr : String
deriving DecidableEq

/-- argv of the stream-copy ffmpeg invocation (lines 30–37): truncate to
60 seconds, copying the audio codec. -/
def copyCmd (audio_path output_path : String) : List String :=
  ["ffmpeg", "-i", audio_path, "-t", "60", "-acodec", "copy", "-y", output_path]

/-- argv of the re-encoding fallback invocation (lines 44–51): same
60-second bound, explicit libmp3lame codec. -/
def reencodeCmd (audio_path output_path : String) : List String :=
  ["ffmpeg", "-i", audio_path, "-t", "60", "-acodec", "libmp3lame", "-y", output_path]

/-- Shallow embedding of `extract_first_60_seconds` (lines 23–57), the
external tool supplied as an oracle from argv to result. Returns the
invocations actually made, in order, and either the output path or the
message of the raised exception. -/
def extract_first_60_seconds (run : List String → CmdResult)
    (audio_path output_path : String) :
    List (List String) × Except String String :=
  let r1 := run (copyCmd audio_path output_path)
  if r1.returncode ≠ 0 then
    let r2 := run (reencodeCmd audio_path output_path)
    if r2.returncode ≠ 0 then
      ([copyCmd audio_path output_path, reencodeCmd audio_path output_path],
        .error ("ffmpeg failed: " ++ r2.stderr))
    else
      ([copyCmd audio_path output_path, reencodeCmd audio_path output_path],
        .ok output_path)
  else
    ([copyCmd audio_path output_path], .ok output_path)

/-- The lowercase hexadecimal digit of `n % 16`. -/
def hexDigit (n : Nat) : Char :=
  match n % 16 with
  | 0 => '0' | 1 => '1' | 2 => '2' | 3 => '3' | 4 => '4'
  | 5 => '5' | 6 => '6' | 7 => '7' | 8 => '8' | 9 => '9'
  | 10 => 'a' | 11 => 'b' | 12 => 'c' | 13 => 'd' | 14 => 'e'
  | _ => 'f'

/-- Four lowercase hex digits, as in CPython's `\uXXXX` escapes. -/
def toHex4 (n : Nat) : List Char :=
  [hexDigit (n / 4096), hexDigit (n / 256), hexDigit (n / 16), hexDigit n]

/-- CPython's JSON string-character escaping with `ensure_ascii=True`
(the default, which `json.dump` at line 118 relies on): backslash, quote
and the named control characters get two-character escapes, remaining
control characters and every character above `0x7e` become `\uXXXX`
escapes (a surrogate pair above `0xffff`); printable ASCII passes
through. -/
def escapeChar (c : Char) : List Char :=
  if c = '\\' then ['\\', '\\']
  else if c = '"' then ['\\', '"']
  else if c = '\n' then ['\\', 'n']
  else if c = '\r' then ['\\', 'r']
  else if c = '\t' then ['\\', 't']
  else if c.toNat = 8 then ['\\', 'b']
  else if c.toNat = 12 then ['\\', 'f']
  else if c.toNat < 32 then '\\' :: 'u' :: toHex4 c.toNat
  else if c.toNat < 127 then [c]
  else if c.toNat < 65536 then '\\' :: 'u' :: toHex4 c.toNat
  else
    ('\\' :: 'u' :: toHex4 (55296 + (c.toNat - 65536) / 1024)) ++
      ('\\' :: 'u' :: toHex4 (56320 + (c.toNat - 65536) % 1024))

/-- A JSON string literal under `ensure_ascii=True`: quoted, every
character escaped by `escapeChar`. -/
def encodeStringAscii (s : String) : String :=
  ⟨'"' :: (s.data.map escapeChar).flatten ++ ['"']⟩

/-- Concatenation with a separator between consecutive items, as the
serializer places `,` + newline + indentation between array elements. -/
def sepConcat (sep : List Char) : List (List Char) → List Char
  | [] => []
  | [x] => x
  | x :: xs => x ++ sep ++ sepConcat sep xs

/-- One Word record as `json.dump` with `indent=2` renders it at array
depth 2: keys in insertion order `word`, `start`, `end`; the number
renderer (Python's float repr) is a parameter. -/
def serializeWordChars (numRepr : ℚ → String) (w : Word) : List Char :=
  "\x7b\n      \"word\": ".data ++ (encodeStringAscii w.word).data ++
    ",\n      \"start\": ".data ++ (numRepr w.start).data ++
    ",\n      \"end\": ".data ++ (numRepr w.end_).data ++ "\n    \x7d".data

/-- `json.dump(json_data, f, indent=2)` (line 118) applied to
`{"words": words}`. -/
def serializeTranscript (numRepr : ℚ → String) (t : Transcript) : String :=
  match t.words with
  | [] => "\x7b\n  \"words\": []\n\x7d"
  | ws =>
      ⟨"\x7b\n  \"words\": [\n    ".data ++
        sepConcat ",\n    ".data (ws.map (serializeWordChars numRepr)) ++
        "\n  ]\n\x7d".data⟩

/-- Hardcoded input path (line 94). -/
def audio_file : String :=
  "public/The Picture of Dorian Gray by Oscar Wilde  Full audiobook.mp3"

/-- Hardcoded temporary clip path (line 102). -/
def temp_audio : String := "temp_60sec.mp3"

/-- Hardcoded output path (line 103). -/
def output_json : String := "public/transcription.json"

/-- What one ffmpeg invocation does, as the oracle decides: the process
result, and whether the invocation left a (possibly incomplete) file at
its output path when it failed. -/
structure CmdEffect where
  res : CmdResult
  leavesFile : Bool
deriving DecidableEq

/-- The oracle for every external effect of one run. -/
structure World where
  inputExists : Bool
  copyEff : CmdEffect
  reencodeEff : CmdEffect
  engine : Except String PyResult
  openOk : Bool
  dumpOk : Bool
  dumpWritten : Nat

/-- Filesystem state observable by the program: presence of the temp
clip, and content of the output file (`none` = absent). -/
structure Fs where
  tempPresent : Bool
  output : Option String
deriving DecidableEq

/-- How one run ended. -/
inductive Outcome where
  | success
  | missingInput
  | clipExtractionError (msg : String)
  | engineError (msg : String)
  | formatError (msg : String)
  | writeError
deriving DecidableEq

/-- Pipeline stages that a run can enter. -/
inductive Stage where
  | extracting
  | transcribing
  | formatting
  | writing
deriving DecidableEq

/-- Observable result of one run of `main`. -/
structure RunResult where
  outcome : Outcome
  exitCode : Nat
  stages : List Stage
  transcript : Option Transcript
  fs : Fs

/-- The `finally` block (lines 127–131): remove the temp file if present. -/
def cleanup (fs : Fs) : Fs := { fs with tempPresent := false }

/-- Temp-file presence after the extraction attempt: a successful ffmpeg
run wrote the clip; a failed run may leave a partial file, as the oracle
decides. -/
def tempAfterExtract (w : World) : Bool :=
  if w.copyEff.res.returncode = 0 then true
  else if w.reencodeEff.res.returncode = 0 then true
  else w.copyEff.leavesFile || w.reencodeEff.leavesFile

/-- The oracle as a command runner for the two ffmpeg argvs. -/
def World.run (w : World) (argv : List String) : CmdResult :=
  if argv = copyCmd audio_file temp_audio then w.copyEff.res
  else if argv = reencodeCmd audio_file temp_audio then w.reencodeEff.res
  else ⟨1, "unknown command"⟩

/-- Shallow embedding of `main` (lines 92–131; the name `main` itself is reserved by Lean): check the input exists,
then inside `try`: extract, transcribe, format, open the output file for
writing (truncating it) and dump the JSON; the `finally` cleanup runs on
every path out of the `try`. An exception exits the process with a
nonzero status. -/
def mainRun (numRepr : ℚ → String) (w : World) (fs0 : Fs) : RunResult :=
  if w.inputExists = false then
    ⟨.missingInput, 1, [], none, fs0⟩
  else
    let ext := extract_first_60_seconds w.run audio_file temp_audio
    let fs1 : Fs := { fs0 with tempPresent := tempAfterExtract w }
    match ext.2 with
    | .error msg => ⟨.clipExtractionError msg, 1, [.extracting], none, cleanup fs1⟩
    | .ok _ =>
      match w.engine with
      | .error msg =>
          ⟨.engineError msg, 1, [.extracting, .transcribing], none, cleanup fs1⟩
      | .ok res =>
        match convert_to_json_format res with
        | .error msg =>
            ⟨.formatError msg, 1, [.extracting, .transcribing, .formatting], none,
              cleanup fs1⟩
        | .ok t =>
          if w.openOk = false then
            ⟨.writeError, 1, [.extracting, .transcribing, .formatting, .writing],
              some t, cleanup fs1⟩
          else
            let full := serializeTranscript numRepr t
            if w.dumpOk then
              ⟨.success, 0, [.extracting, .transcribing, .formatting, .writing],
                some t, cleanup { fs1 with output := some full }⟩
            else
              ⟨.writeError, 1, [.extracting, .transcribing, .formatting, .writing],
                some t, cleanup { fs1 with output := some (full.take w.dumpWritten) }⟩

theorem convertWords_isOk (ws : List PyWordInfo)
    (h : ∀ wi ∈ ws, wi.word ≠ none ∧ wi.start ≠ none ∧ wi.end_ ≠ none) :
    ∃ out, convertWords ws = .ok out := by
  induction ws with
  | nil => exact ⟨[], rfl⟩
  | cons wi rest ih =>
      obtain ⟨hw, hs, he⟩ := h wi (by simp)
      obtain ⟨ow, how⟩ := Option.ne_none_iff_exists'.mp hw
      obtain ⟨os, hos⟩ := Option.ne_none_iff_exists'.mp hs
      obtain ⟨oe, hoe⟩ := Option.ne_none_iff_exists'.mp he
      obtain ⟨out, hout⟩ := ih (fun x hx => h x (by simp [hx]))
      exact ⟨⟨pyStrip ow, os, oe⟩ :: out,
        by simp [convertWords, convertWord, getKey, how, hos, hoe, hout,
          Bind.bind, Except.bind, Pure.pure, Except.pure]⟩

theorem convertSegs_isOk (segs : List PySegment)
    (h : ∀ seg ∈ segs, ∀ wi ∈ seg.words.getD [],
      wi.word ≠ none ∧ wi.start ≠ none ∧ wi.end_ ≠ none) :
    ∃ out, convertSegs segs = .ok out := by
  induction segs with
  | nil => exact ⟨[], rfl⟩
  | cons seg rest ih =>
      obtain ⟨ws, hws⟩ := convertWords_isOk (seg.words.getD [])
        (fun wi hwi => h seg (by simp) wi hwi)
      obtain ⟨out, hout⟩ := ih (fun s hs => h s (by simp [hs]))
      exact ⟨ws ++ out, by simp [convertSegs, hws, hout,
        Bind.bind, Except.bind, Pure.pure, Except.pure]⟩

theorem convertSegs_skip_wordless (pre post : List PySegment) (seg : PySegment)
    (h : seg.words = none) :
    convertSegs (pre ++ seg :: post) = convertSegs (pre ++ post) := by
  induction pre with
  | nil =>
      cases hpost : convertSegs post <;>
        simp [convertSegs, h, convertWords, Bind.bind, Except.bind,
          Pure.pure, Except.pure, hpost]
  | cons s rest ih => simp [convertSegs, ih]

theorem convertWord_missing_key (wi : PyWordInfo)
    (h : wi.word = none ∨ wi.start = none ∨ wi.end_ = none) :
    ∃ msg, convertWord wi = .error msg := by
  obtain ⟨ow, os, oe⟩ := wi
  cases ow <;> cases os <;> cases oe <;>
    first
      | exact ⟨_, rfl⟩
      | simp_all

/-- **C1.** For every engine result, the Transcript Formatter
`convert_to_json_format` flattens every segment's word list into a
single ordered sequence of Word records in encounter order, with each
word text stripped of surrounding whitespace and start/end copied
unchanged; a segment with zero words contributes nothing, a result with
zero segments yields the empty Transcript, and on the input
`[{words: [{" Hello", 0.0, 0.4}]}, {words: []}]` the output is
`{"words": [{"Hello", 0.0, 0.4}]}`. -/
theorem C1_formatter_flattens :
    (∀ r : WhisperResult, convert_to_json_format r.toPy = .ok (specFormat r)) ∧
    convert_to_json_format (WhisperResult.toPy ⟨[]⟩) = .ok ⟨[]⟩ ∧
    convert_to_json_format (WhisperResult.toPy ⟨[⟨[⟨" Hello", 0, 2/5⟩]⟩, ⟨[]⟩]⟩) =
      .ok ⟨[⟨"Hello", 0, 2/5⟩]⟩ :=
  ⟨convert_toPy_eq, rfl, by rfl⟩

/-- **C8.** The formatter tolerates missing container keys: a result
without a `segments` key yields the empty Transcript, a segment without
a `words` key contributes nothing, and only a word entry missing one of
`word`, `start`, `end` raises an error. -/
theorem C8_missing_container_keys :
    convert_to_json_format ⟨none⟩ = .ok ⟨[]⟩ ∧
    (∀ pre post : List PySegment, ∀ seg : PySegment, seg.words = none →
      convert_to_json_format ⟨some (pre ++ seg :: post)⟩ =
        convert_to_json_format ⟨some (pre ++ post)⟩) ∧
    (∀ wi : PyWordInfo, wi.word = none ∨ wi.start = none ∨ wi.end_ = none →
      ∃ msg, convert_to_json_format ⟨some [⟨some [wi]⟩]⟩ = .error msg) ∧
    (∀ r : PyResult, (∀ seg ∈ r.segments.getD [], ∀ wi ∈ seg.words.getD [],
        wi.word ≠ none ∧ wi.start ≠ none ∧ wi.end_ ≠ none) →
      ∃ t, convert_to_json_format r = .ok t) := by
  refine ⟨rfl, ?_, ?_, ?_⟩
  · intro pre post seg h
    simp [convert_to_json_format, convertSegs_skip_wordless pre post seg h]
  · intro wi h
    obtain ⟨msg, hmsg⟩ := convertWord_missing_key wi h
    exact ⟨msg, by simp [convert_to_json_format, convertSegs, convertWords, hmsg,
      Bind.bind, Except.bind, Except.map]⟩
  · intro r h
    obtain ⟨out, hout⟩ := convertSegs_isOk (r.segments.getD []) h
    exact ⟨⟨out⟩, by simp [convert_to_json_format, hout, Except.map]⟩

/-- **C8 witness.** The hypotheses of C8 instantiated concretely: a
segment with no `words` key is skipped, a word entry with no `start` key
errors, and a fully-keyed result succeeds. -/
theorem C8_missing_container_keys_witness :
    convert_to_json_format ⟨some [⟨some [⟨some "a", some 0, some 1⟩]⟩, ⟨none⟩]⟩ =
      convert_to_json_format ⟨some [⟨some [⟨some "a", some 0, some 1⟩]⟩]⟩ ∧
    (∃ msg, convert_to_json_format ⟨some [⟨some [⟨some "a", none, some 1⟩]⟩]⟩ =
      .error msg) ∧
    (∃ t, convert_to_json_format ⟨some [⟨some [⟨some "a", some 0, some 1⟩]⟩]⟩ =
      .ok t) :=
  ⟨C8_missing_container_keys.2.1 [⟨some [⟨some "a", some 0, some 1⟩]⟩] [] ⟨none⟩ rfl,
    C8_missing_container_keys.2.2.1 ⟨some "a", none, some 1⟩ (by simp),
    C8_missing_container_keys.2.2.2 ⟨some [⟨some [⟨some "a", some 0, some 1⟩]⟩]⟩
      (by simp)⟩

/-- **C9.** The Formatter never drops a word entry: the output length
equals the total number of word entries across all segments, and a
whitespace-only word is kept as the empty string, not removed. -/
theorem C9_no_word_dropped :
    (∀ r : WhisperResult, ∃ t, convert_to_json_format r.toPy = .ok t ∧
      t.words.length = (r.segments.map (fun s => s.words.length)).sum) ∧
    convert_to_json_format (WhisperResult.toPy ⟨[⟨[⟨"   ", 1, 2⟩]⟩]⟩) =
      .ok ⟨[⟨"", 1, 2⟩]⟩ := by
  refine ⟨fun r => ⟨specFormat r, convert_toPy_eq r, ?_⟩, by rfl⟩
  simp [specFormat, List.length_flatten, List.map_map, Function.comp_def]

/-- **C6.** Under the precondition that the engine's word entries are
chronological — start ≤ end for each entry, words ordered within each
segment, segments ordered between each other — the formatter's output
has start ≤ end for every Word and non-decreasing starts across the
whole Transcript: encounter order is preserved, nothing is reordered. -/
theorem C6_order_preserved (r : WhisperResult)
    (h1 : ∀ seg ∈ r.segments, ∀ w ∈ seg.words, w.start ≤ w.end_)
    (h2 : ∀ seg ∈ r.segments, (seg.words.map WordInfo.start).Sorted (· ≤ ·))
    (h3 : r.segments.Pairwise (fun s1 s2 => ∀ w1 ∈ s1.words, ∀ w2 ∈ s2.words,
      w1.start ≤ w2.start)) :
    ∃ t, convert_to_json_format r.toPy = .ok t ∧
      (∀ w ∈ t.words, w.start ≤ w.end_) ∧
      (t.words.map Word.start).Sorted (· ≤ ·) := by
  refine ⟨specFormat r, convert_toPy_eq r, ?_, ?_⟩
  · intro w hw
    simp only [specFormat] at hw
    rw [List.mem_map] at hw
    obtain ⟨wi, hwi, rfl⟩ := hw
    rw [List.mem_flatten] at hwi
    obtain ⟨l, hlmem, hwl⟩ := hwi
    rw [List.mem_map] at hlmem
    obtain ⟨seg, hseg, rfl⟩ := hlmem
    exact h1 seg hseg wi hwl
  · have : (specFormat r).words.map Word.start =
        ((r.segments.map Segment.words).flatten).map WordInfo.start := by
      simp [specFormat, List.map_map, Function.comp_def]
    rw [List.Sorted, this, List.pairwise_map, List.pairwise_flatten]
    constructor
    · intro l hl
      simp only [List.mem_map] at hl
      obtain ⟨seg, hseg, rfl⟩ := hl
      have := h2 seg hseg
      rwa [List.Sorted, List.pairwise_map] at this
    · rw [List.pairwise_map]
      exact h3.imp (fun {s1 s2} h w1 hw1 w2 hw2 => h w1 hw1 w2 hw2)

/-- **C6 witness.** The order-preservation theorem applied to a concrete
two-segment chronological result. -/
theorem C6_order_preserved_witness :
    ∃ t, convert_to_json_format
        (WhisperResult.toPy ⟨[⟨[⟨"a", 0, 1⟩, ⟨"b", 1, 2⟩]⟩, ⟨[⟨"c", 2, 3⟩]⟩]⟩) =
      .ok t ∧
      (∀ w ∈ t.words, w.start ≤ w.end_) ∧
      (t.words.map Word.start).Sorted (· ≤ ·) :=
  C6_order_preserved ⟨[⟨[⟨"a", 0, 1⟩, ⟨"b", 1, 2⟩]⟩, ⟨[⟨"c", 2, 3⟩]⟩]⟩
    (by decide) (by decide) (by decide)

theorem copyCmd_ne_reencodeCmd (a o : String) : copyCmd a o ≠ reencodeCmd a o := by
  simp [copyCmd, reencodeCmd]

/-- **C3.** The Clip Extractor first attempts stream-copy truncation to
60 seconds; the re-encode strategy is invoked iff the stream-copy
invocation fails; if both fail it raises an error carrying the tool's
stderr, and that failure aborts the run before transcription. -/
theorem C3_copy_then_fallback :
    (∀ run : List String → CmdResult, ∀ a o : String,
      (extract_first_60_seconds run a o).1.head? = some (copyCmd a o) ∧
      (reencodeCmd a o ∈ (extract_first_60_seconds run a o).1 ↔
        (run (copyCmd a o)).returncode ≠ 0) ∧
      ((extract_first_60_seconds run a o).2 =
          .error ("ffmpeg failed: " ++ (run (reencodeCmd a o)).stderr) ↔
        ((run (copyCmd a o)).returncode ≠ 0 ∧
          (run (reencodeCmd a o)).returncode ≠ 0))) ∧
    (∀ nR : ℚ → String, ∀ w : World, ∀ fs0 : Fs, ∀ msg : String,
      (mainRun nR w fs0).outcome = .clipExtractionError msg →
      Stage.transcribing ∉ (mainRun nR w fs0).stages) := by
  constructor
  · intro run a o
    by_cases h1 : (run (copyCmd a o)).returncode = 0
    · refine ⟨?_, ?_, ?_⟩ <;>
        simp [extract_first_60_seconds, h1, (copyCmd_ne_reencodeCmd a o).symm]
    · by_cases h2 : (run (reencodeCmd a o)).returncode = 0 <;>
        refine ⟨?_, ?_, ?_⟩ <;>
        simp [extract_first_60_seconds, h1, h2]
  · intro nR w fs0 msg h
    by_cases hin : w.inputExists = false
    · simp [mainRun, hin] at h
    · rcases hext : (extract_first_60_seconds w.run audio_file temp_audio).2 with m | p
      · simp [mainRun, hin, hext]
      · rcases heng : w.engine with m | res
        · simp [mainRun, hin, hext, heng] at h
        · rcases hconv : convert_to_json_format res with m | t
          · simp [mainRun, hin, hext, heng, hconv] at h
          · by_cases hopen : w.openOk = false
            · simp [mainRun, hin, hext, heng, hconv, hopen] at h
            · by_cases hdump : w.dumpOk <;>
                simp [mainRun, hin, hext, heng, hconv, hopen, hdump] at h

/-- **C3 witness.** A run whose two extraction strategies both fail has
a clip-extraction outcome and never enters the transcription stage. -/
theorem C3_copy_then_fallback_witness :
    Stage.transcribing ∉ (mainRun (fun _ => "")
      ⟨true, ⟨⟨1, "copy boom"⟩, false⟩, ⟨⟨1, "boom"⟩, false⟩, .ok ⟨none⟩, true, true, 0⟩
      ⟨false, none⟩).stages :=
  C3_copy_then_fallback.2 (fun _ => "")
    ⟨true, ⟨⟨1, "copy boom"⟩, false⟩, ⟨⟨1, "boom"⟩, false⟩, .ok ⟨none⟩, true, true, 0⟩
    ⟨false, none⟩ "ffmpeg failed: boom" (by decide)

/-- **C2.** On every exit path of a run that reaches the extraction
stage, the temporary clip file is deleted before the process ends. -/
theorem C2_temp_cleanup (nR : ℚ → String) (w : World) (fs0 : Fs)
    (h : w.inputExists = true) :
    (mainRun nR w fs0).fs.tempPresent = false := by
  have hin : ¬ (w.inputExists = false) := by simp [h]
  rcases hext : (extract_first_60_seconds w.run audio_file temp_audio).2 with m | p
  · simp [mainRun, hin, hext, cleanup]
  · rcases heng : w.engine with m | res
    · simp [mainRun, hin, hext, heng, cleanup]
    · rcases hconv : convert_to_json_format res with m | t
      · simp [mainRun, hin, hext, heng, hconv, cleanup]
      · by_cases hopen : w.openOk = false
        · simp [mainRun, hin, hext, heng, hconv, hopen, cleanup]
        · by_cases hdump : w.dumpOk <;>
            simp [mainRun, hin, hext, heng, hconv, hopen, hdump, cleanup]

/-- **C2 witness.** A run that reaches extraction and then fails in the
engine still ends with the temporary clip absent. -/
theorem C2_temp_cleanup_witness :
    (mainRun (fun _ => "")
      ⟨true, ⟨⟨0, ""⟩, true⟩, ⟨⟨0, ""⟩, true⟩, .error "engine boom", true, true, 0⟩
      ⟨true, none⟩).fs.tempPresent = false :=
  C2_temp_cleanup (fun _ => "")
    ⟨true, ⟨⟨0, ""⟩, true⟩, ⟨⟨0, ""⟩, true⟩, .error "engine boom", true, true, 0⟩
    ⟨true, none⟩ rfl

/-- **C5.** If the input audio file is absent, the run performs no
pipeline stage, reports the missing input, leaves the filesystem
untouched, and exits nonzero. -/
theorem C5_missing_input (nR : ℚ → String) (w : World) (fs0 : Fs)
    (h : w.inputExists = false) :
    (mainRun nR w fs0).outcome = .missingInput ∧
    (mainRun nR w fs0).exitCode ≠ 0 ∧
    (mainRun nR w fs0).stages = [] ∧
    (mainRun nR w fs0).fs = fs0 := by
  simp [mainRun, h]

/-- **C5 witness.** The missing-input theorem at a concrete world. -/
theorem C5_missing_input_witness :
    (mainRun (fun _ => "")
      ⟨false, ⟨⟨0, ""⟩, true⟩, ⟨⟨0, ""⟩, true⟩, .ok ⟨none⟩, true, true, 0⟩
      ⟨false, some "OLD"⟩).outcome = .missingInput ∧
    (mainRun (fun _ => "")
      ⟨false, ⟨⟨0, ""⟩, true⟩, ⟨⟨0, ""⟩, true⟩, .ok ⟨none⟩, true, true, 0⟩
      ⟨false, some "OLD"⟩).exitCode ≠ 0 ∧
    (mainRun (fun _ => "")
      ⟨false, ⟨⟨0, ""⟩, true⟩, ⟨⟨0, ""⟩, true⟩, .ok ⟨none⟩, true, true, 0⟩
      ⟨false, some "OLD"⟩).stages = [] ∧
    (mainRun (fun _ => "")
      ⟨false, ⟨⟨0, ""⟩, true⟩, ⟨⟨0, ""⟩, true⟩, .ok ⟨none⟩, true, true, 0⟩
      ⟨false, some "OLD"⟩).fs = ⟨false, some "OLD"⟩ :=
  C5_missing_input (fun _ => "")
    ⟨false, ⟨⟨0, ""⟩, true⟩, ⟨⟨0, ""⟩, true⟩, .ok ⟨none⟩, true, true, 0⟩
    ⟨false, some "OLD"⟩ rfl

theorem mainRun_success_char (nR : ℚ → String) (w : World) (fs0 : Fs)
    (h : (mainRun nR w fs0).outcome = .success) :
    ∃ t, ∀ fs' : Fs, mainRun nR w fs' =
      ⟨.success, 0, [.extracting, .transcribing, .formatting, .writing], some t,
        ⟨false, some (serializeTranscript nR t)⟩⟩ := by
  by_cases hin : w.inputExists = false
  · simp [mainRun, hin] at h
  · rcases hext : (extract_first_60_seconds w.run audio_file temp_audio).2 with m | p
    · simp [mainRun, hin, hext] at h
    · rcases heng : w.engine with m | res
      · simp [mainRun, hin, hext, heng] at h
      · rcases hconv : convert_to_json_format res with m | t
        · simp [mainRun, hin, hext, heng, hconv] at h
        · by_cases hopen : w.openOk = false
          · simp [mainRun, hin, hext, heng, hconv, hopen] at h
          · by_cases hdump : w.dumpOk
            · exact ⟨t, fun fs' => by
                simp [mainRun, hin, hext, heng, hconv, hopen, hdump, cleanup]⟩
            · simp [mainRun, hin, hext, heng, hconv, hopen, hdump] at h

theorem mainRun_untouched (nR : ℚ → String) (w : World) (fs0 : Fs)
    (h1 : (mainRun nR w fs0).outcome ≠ .success)
    (h2 : (mainRun nR w fs0).outcome ≠ .writeError) :
    (mainRun nR w fs0).fs.output = fs0.output := by
  by_cases hin : w.inputExists = false
  · simp [mainRun, hin]
  · rcases hext : (extract_first_60_seconds w.run audio_file temp_audio).2 with m | p
    · simp [mainRun, hin, hext, cleanup]
    · rcases heng : w.engine with m | res
      · simp [mainRun, hin, hext, heng, cleanup]
      · rcases hconv : convert_to_json_format res with m | t
        · simp [mainRun, hin, hext, heng, hconv, cleanup]
        · by_cases hopen : w.openOk = false
          · exact absurd (by simp [mainRun, hin, hext, heng, hconv, hopen]) h2
          · by_cases hdump : w.dumpOk
            · exact absurd (by simp [mainRun, hin, hext, heng, hconv, hopen, hdump]) h1
            · exact absurd (by simp [mainRun, hin, hext, heng, hconv, hopen, hdump]) h2

theorem mainRun_clipError (nR : ℚ → String) (w : World) (fs0 : Fs) (msg : String)
    (h : (mainRun nR w fs0).outcome = .clipExtractionError msg) :
    (mainRun nR w fs0).stages = [.extracting] ∧
    (mainRun nR w fs0).fs.output = fs0.output := by
  by_cases hin : w.inputExists = false
  · simp [mainRun, hin] at h
  · rcases hext : (extract_first_60_seconds w.run audio_file temp_audio).2 with m | p
    · simp [mainRun, hin, hext, cleanup]
    · rcases heng : w.engine with m | res
      · simp [mainRun, hin, hext, heng] at h
      · rcases hconv : convert_to_json_format res with m | t
        · simp [mainRun, hin, hext, heng, hconv] at h
        · by_cases hopen : w.openOk = false
          · simp [mainRun, hin, hext, heng, hconv, hopen] at h
          · by_cases hdump : w.dumpOk <;>
              simp [mainRun, hin, hext, heng, hconv, hopen, hdump] at h

/-- **C4 counterexample.** A run whose `json.dump` fails after the
output file was opened for writing leaves the pre-existing output
neither intact, nor absent, nor equal to the full serialized
Transcript: `open(output_json, "w")` truncated it and the dump wrote a
strict prefix. -/
theorem C4_counterexample :
    (mainRun (fun _ => "0")
      ⟨true, ⟨⟨0, ""⟩, true⟩, ⟨⟨0, ""⟩, true⟩, .ok ⟨some []⟩, true, false, 3⟩
      ⟨false, some "OLD"⟩).outcome = .writeError ∧
    (mainRun (fun _ => "0")
      ⟨true, ⟨⟨0, ""⟩, true⟩, ⟨⟨0, ""⟩, true⟩, .ok ⟨some []⟩, true, false, 3⟩
      ⟨false, some "OLD"⟩).fs.output ≠ some "OLD" ∧
    (mainRun (fun _ => "0")
      ⟨true, ⟨⟨0, ""⟩, true⟩, ⟨⟨0, ""⟩, true⟩, .ok ⟨some []⟩, true, false, 3⟩
      ⟨false, some "OLD"⟩).fs.output ≠ none ∧
    (mainRun (fun _ => "0")
      ⟨true, ⟨⟨0, ""⟩, true⟩, ⟨⟨0, ""⟩, true⟩, .ok ⟨some []⟩, true, false, 3⟩
      ⟨false, some "OLD"⟩).fs.output ≠
        some (serializeTranscript (fun _ => "0") ⟨[]⟩) := by
  refine ⟨by decide, by decide, by decide, by decide⟩

/-- **C4 (amended).** If the run succeeds, the full serialized
Transcript is written; if the run fails before the write stage, the
output file is untouched — in particular, extraction failure means
transcription is never attempted and the output file keeps its prior
content. (A failure of the write stage itself can leave the output
truncated or partially written, as the counterexample shows.) -/
theorem C4_all_or_nothing_amended (nR : ℚ → String) (w : World) (fs0 : Fs) :
    ((mainRun nR w fs0).outcome = .success →
      ∃ t, (mainRun nR w fs0).transcript = some t ∧
        (mainRun nR w fs0).fs.output = some (serializeTranscript nR t)) ∧
    ((mainRun nR w fs0).outcome ≠ .success →
      (mainRun nR w fs0).outcome ≠ .writeError →
      (mainRun nR w fs0).fs.output = fs0.output) ∧
    (∀ msg, (mainRun nR w fs0).outcome = .clipExtractionError msg →
      Stage.transcribing ∉ (mainRun nR w fs0).stages ∧
      (mainRun nR w fs0).fs.output = fs0.output) := by
  refine ⟨?_, mainRun_untouched nR w fs0, ?_⟩
  · intro h
    obtain ⟨t, ht⟩ := mainRun_success_char nR w fs0 h
    exact ⟨t, by rw [ht fs0], by rw [ht fs0]⟩
  · intro msg h
    obtain ⟨hs, ho⟩ := mainRun_clipError nR w fs0 msg h
    exact ⟨by rw [hs]; decide, ho⟩

/-- **C4 witness.** The amended theorem at concrete worlds: a
successful run writes the full serialization, an engine failure leaves
the prior output intact, and an extraction failure never transcribes. -/
theorem C4_all_or_nothing_amended_witness :
    (∃ t, (mainRun (fun _ => "0")
        ⟨true, ⟨⟨0, ""⟩, true⟩, ⟨⟨0, ""⟩, true⟩, .ok ⟨some []⟩, true, true, 0⟩
        ⟨false, some "OLD"⟩).transcript = some t ∧
      (mainRun (fun _ => "0")
        ⟨true, ⟨⟨0, ""⟩, true⟩, ⟨⟨0, ""⟩, true⟩, .ok ⟨some []⟩, true, true, 0⟩
        ⟨false, some "OLD"⟩).fs.output =
        some (serializeTranscript (fun _ => "0") t)) ∧
    (mainRun (fun _ => "0")
      ⟨true, ⟨⟨0, ""⟩, true⟩, ⟨⟨0, ""⟩, true⟩, .error "engine boom", true, true, 0⟩
      ⟨false, some "OLD"⟩).fs.output = some "OLD" ∧
    (Stage.transcribing ∉ (mainRun (fun _ => "0")
        ⟨true, ⟨⟨1, "a"⟩, false⟩, ⟨⟨1, "b"⟩, false⟩, .ok ⟨some []⟩, true, true, 0⟩
        ⟨false, some "OLD"⟩).stages ∧
      (mainRun (fun _ => "0")
        ⟨true, ⟨⟨1, "a"⟩, false⟩, ⟨⟨1, "b"⟩, false⟩, .ok ⟨some []⟩, true, true, 0⟩
        ⟨false, some "OLD"⟩).fs.output = some "OLD") :=
  ⟨(C4_all_or_nothing_amended (fun _ => "0")
      ⟨true, ⟨⟨0, ""⟩, true⟩, ⟨⟨0, ""⟩, true⟩, .ok ⟨some []⟩, true, true, 0⟩
      ⟨false, some "OLD"⟩).1 (by decide),
    (C4_all_or_nothing_amended (fun _ => "0")
      ⟨true, ⟨⟨0, ""⟩, true⟩, ⟨⟨0, ""⟩, true⟩, .error "engine boom", true, true, 0⟩
      ⟨false, some "OLD"⟩).2.1 (by decide) (by decide),
    (C4_all_or_nothing_amended (fun _ => "0")
      ⟨true, ⟨⟨1, "a"⟩, false⟩, ⟨⟨1, "b"⟩, false⟩, .ok ⟨some []⟩, true, true, 0⟩
      ⟨false, some "OLD"⟩).2.2 "ffmpeg failed: b" (by decide)⟩

/-- **C7.** With a fixed (deterministic) oracle, a second run on top of
the first produces the same Transcript and byte-for-byte the same
output-file content, and that content is exactly the serialized
Transcript — the prior file content is overwritten, not appended to. -/
theorem C7_idempotent_overwrite (nR : ℚ → String) (w : World) (fs0 : Fs)
    (h : (mainRun nR w fs0).outcome = .success) :
    (mainRun nR w (mainRun nR w fs0).fs).outcome = .success ∧
    (mainRun nR w (mainRun nR w fs0).fs).transcript = (mainRun nR w fs0).transcript ∧
    (mainRun nR w (mainRun nR w fs0).fs).fs.output = (mainRun nR w fs0).fs.output ∧
    ∃ t, (mainRun nR w fs0).transcript = some t ∧
      (mainRun nR w fs0).fs.output = some (serializeTranscript nR t) := by
  obtain ⟨t, ht⟩ := mainRun_success_char nR w fs0 h
  refine ⟨?_, ?_, ?_, t, ?_, ?_⟩ <;> simp [ht]

/-- **C7 witness.** The idempotence theorem at a concrete successful
world with a one-word result. -/
theorem C7_idempotent_overwrite_witness :
    (mainRun (fun _ => "0")
        ⟨true, ⟨⟨0, ""⟩, true⟩, ⟨⟨0, ""⟩, true⟩,
          .ok ⟨some [⟨some [⟨some " hi", some 0, some 1⟩]⟩]⟩, true, true, 0⟩
        (mainRun (fun _ => "0")
          ⟨true, ⟨⟨0, ""⟩, true⟩, ⟨⟨0, ""⟩, true⟩,
            .ok ⟨some [⟨some [⟨some " hi", some 0, some 1⟩]⟩]⟩, true, true, 0⟩
          ⟨false, some "OLD"⟩).fs).outcome = .success ∧
    (mainRun (fun _ => "0")
        ⟨true, ⟨⟨0, ""⟩, true⟩, ⟨⟨0, ""⟩, true⟩,
          .ok ⟨some [⟨some [⟨some " hi", some 0, some 1⟩]⟩]⟩, true, true, 0⟩
        (mainRun (fun _ => "0")
          ⟨true, ⟨⟨0, ""⟩, true⟩, ⟨⟨0, ""⟩, true⟩,
            .ok ⟨some [⟨some [⟨some " hi", some 0, some 1⟩]⟩]⟩, true, true, 0⟩
          ⟨false, some "OLD"⟩).fs).transcript =
      (mainRun (fun _ => "0")
        ⟨true, ⟨⟨0, ""⟩, true⟩, ⟨⟨0, ""⟩, true⟩,
          .ok ⟨some [⟨some [⟨some " hi", some 0, some 1⟩]⟩]⟩, true, true, 0⟩
        ⟨false, some "OLD"⟩).transcript ∧
    (mainRun (fun _ => "0")
        ⟨true, ⟨⟨0, ""⟩, true⟩, ⟨⟨0, ""⟩, true⟩,
          .ok ⟨some [⟨some [⟨some " hi", some 0, some 1⟩]⟩]⟩, true, true, 0⟩
        (mainRun (fun _ => "0")
          ⟨true, ⟨⟨0, ""⟩, true⟩, ⟨⟨0, ""⟩, true⟩,
            .ok ⟨some [⟨some [⟨some " hi", some 0, some 1⟩]⟩]⟩, true, true, 0⟩
          ⟨false, some "OLD"⟩).fs).fs.output =
      (mainRun (fun _ => "0")
        ⟨true, ⟨⟨0, ""⟩, true⟩, ⟨⟨0, ""⟩, true⟩,
          .ok ⟨some [⟨some [⟨some " hi", some 0, some 1⟩]⟩]⟩, true, true, 0⟩
        ⟨false, some "OLD"⟩).fs.output ∧
    ∃ t, (mainRun (fun _ => "0")
        ⟨true, ⟨⟨0, ""⟩, true⟩, ⟨⟨0, ""⟩, true⟩,
          .ok ⟨some [⟨some [⟨some " hi", some 0, some 1⟩]⟩]⟩, true, true, 0⟩
        ⟨false, some "OLD"⟩).transcript = some t ∧
      (mainRun (fun _ => "0")
        ⟨true, ⟨⟨0, ""⟩, true⟩, ⟨⟨0, ""⟩, true⟩,
          .ok ⟨some [⟨some [⟨some " hi", some 0, some 1⟩]⟩]⟩, true, true, 0⟩
        ⟨false, some "OLD"⟩).fs.output =
        some (serializeTranscript (fun _ => "0") t) :=
  C7_idempotent_overwrite (fun _ => "0")
    ⟨true, ⟨⟨0, ""⟩, true⟩, ⟨⟨0, ""⟩, true⟩,
      .ok ⟨some [⟨some [⟨some " hi", some 0, some 1⟩]⟩]⟩, true, true, 0⟩
    ⟨false, some "OLD"⟩ (by decide)

theorem hexDigit_ascii (n : Nat) : (hexDigit n).toNat < 128 := by
  unfold hexDigit
  split <;> decide

theorem uEscape_ascii (n : Nat) :
    ∀ ch ∈ ('\\' :: 'u' :: toHex4 n), ch.toNat < 128 := by
  intro ch hch
  simp [toHex4] at hch
  rcases hch with rfl | rfl | rfl | rfl | rfl | rfl <;>
    first
      | decide
      | exact hexDigit_ascii _

theorem escapeChar_ascii (c : Char) : ∀ ch ∈ escapeChar c, ch.toNat < 128 := by
  by_cases h1 : c = '\\'
  · subst h1; decide
  by_cases h2 : c = '"'
  · subst h2; decide
  by_cases h3 : c = '\n'
  · subst h3; decide
  by_cases h4 : c = '\r'
  · subst h4; decide
  by_cases h5 : c = '\t'
  · subst h5; decide
  by_cases h6 : c.toNat = 8
  · intro ch hch
    simp only [escapeChar, if_neg h1, if_neg h2, if_neg h3, if_neg h4, if_neg h5,
      if_pos h6, List.mem_cons, List.not_mem_nil, or_false] at hch
    rcases hch with rfl | rfl <;> decide
  by_cases h7 : c.toNat = 12
  · intro ch hch
    simp only [escapeChar, if_neg h1, if_neg h2, if_neg h3, if_neg h4, if_neg h5,
      if_neg h6, if_pos h7, List.mem_cons, List.not_mem_nil, or_false] at hch
    rcases hch with rfl | rfl <;> decide
  by_cases h8 : c.toNat < 32
  · intro ch hch
    simp only [escapeChar, if_neg h1, if_neg h2, if_neg h3, if_neg h4, if_neg h5,
      if_neg h6, if_neg h7, if_pos h8] at hch
    exact uEscape_ascii _ ch hch
  by_cases h9 : c.toNat < 127
  · intro ch hch
    simp only [escapeChar, if_neg h1, if_neg h2, if_neg h3, if_neg h4, if_neg h5,
      if_neg h6, if_neg h7, if_neg h8, if_pos h9, List.mem_cons,
      List.not_mem_nil, or_false] at hch
    subst hch
    omega
  by_cases h10 : c.toNat < 65536
  · intro ch hch
    simp only [escapeChar, if_neg h1, if_neg h2, if_neg h3, if_neg h4, if_neg h5,
      if_neg h6, if_neg h7, if_neg h8, if_neg h9, if_pos h10] at hch
    exact uEscape_ascii _ ch hch
  · intro ch hch
    simp only [escapeChar, if_neg h1, if_neg h2, if_neg h3, if_neg h4, if_neg h5,
      if_neg h6, if_neg h7, if_neg h8, if_neg h9, if_neg h10] at hch
    rcases List.mem_append.mp hch with h | h
    · exact uEscape_ascii _ ch h
    · exact uEscape_ascii _ ch h

theorem encodeStringAscii_ascii (s : String) :
    ∀ ch ∈ (encodeStringAscii s).data, ch.toNat < 128 := by
  intro ch hch
  simp only [encodeStringAscii, String.data, List.mem_cons, List.mem_append,
    List.not_mem_nil, or_false] at hch
  rcases hch with (rfl | h) | rfl
  · decide
  · rw [List.mem_flatten] at h
    obtain ⟨l, hl, hcl⟩ := h
    rw [List.mem_map] at hl
    obtain ⟨c, _, rfl⟩ := hl
    exact escapeChar_ascii c ch hcl
  · decide

theorem sepConcat_subset (sep : List Char) (ls : List (List Char)) :
    ∀ ch ∈ sepConcat sep ls, ch ∈ sep ∨ ∃ l ∈ ls, ch ∈ l := by
  intro ch hch
  induction ls with
  | nil => simp [sepConcat] at hch
  | cons x xs ih =>
      cases xs with
      | nil => exact Or.inr ⟨x, by simp, by simpa [sepConcat] using hch⟩
      | cons y ys =>
          simp only [sepConcat] at hch
          rcases List.mem_append.mp hch with h | h
          · rcases List.mem_append.mp h with h' | h'
            · exact Or.inr ⟨x, by simp, h'⟩
            · exact Or.inl h'
          · rcases ih h with h' | ⟨l, hl, hcl⟩
            · exact Or.inl h'
            · exact Or.inr ⟨l, by simp [hl], hcl⟩

theorem serializeWordChars_ascii (nR : ℚ → String)
    (hnum : ∀ q : ℚ, ∀ ch ∈ (nR q).data, ch.toNat < 128) (w : Word) :
    ∀ ch ∈ serializeWordChars nR w, ch.toNat < 128 := by
  intro ch hch
  simp only [serializeWordChars, List.mem_append] at hch
  rcases hch with ((((((h | h) | h) | h) | h) | h) | h)
  · exact (by decide : ∀ c ∈ ("\x7b\n      \"word\": " : String).data, c.toNat < 128) ch h
  · exact encodeStringAscii_ascii w.word ch h
  · exact (by decide : ∀ c ∈ (",\n      \"start\": " : String).data, c.toNat < 128) ch h
  · exact hnum w.start ch h
  · exact (by decide : ∀ c ∈ (",\n      \"end\": " : String).data, c.toNat < 128) ch h
  · exact hnum w.end_ ch h
  · exact (by decide : ∀ c ∈ ("\n    \x7d" : String).data, c.toNat < 128) ch h

/-- **C10.** The serialized output contains only ASCII characters: the
writer relies on the serializer's default non-ASCII escaping, so a
non-ASCII character in a word's text is written as a `\uXXXX` escape —
as the second conjunct shows concretely for `é`. -/
theorem C10_ascii_output :
    (∀ nR : ℚ → String, (∀ q : ℚ, ∀ ch ∈ (nR q).data, ch.toNat < 128) →
      ∀ t : Transcript, ∀ ch ∈ (serializeTranscript nR t).data, ch.toNat < 128) ∧
    escapeChar 'é' = ['\\', 'u', '0', '0', 'e', '9'] := by
  refine ⟨?_, by decide⟩
  intro nR hnum t ch hch
  rcases hws : t.words with _ | ⟨w, ws⟩
  · rw [serializeTranscript, hws] at hch
    exact (by decide : ∀ c ∈ ("\x7b\n  \"words\": []\n\x7d" : String).data, c.toNat < 128)
      ch hch
  · rw [serializeTranscript, hws] at hch
    simp only [List.mem_append] at hch
    rcases hch with (h | h) | h
    · exact (by decide : ∀ c ∈ ("\x7b\n  \"words\": [\n    " : String).data,
        c.toNat < 128) ch h
    · rcases sepConcat_subset _ _ ch h with h' | ⟨l, hl, hcl⟩
      · exact (by decide : ∀ c ∈ (",\n    " : String).data, c.toNat < 128) ch h'
      · rw [List.mem_map] at hl
        obtain ⟨w', _, rfl⟩ := hl
        exact serializeWordChars_ascii nR hnum w' ch hcl
    · exact (by decide : ∀ c ∈ ("\n  ]\n\x7d" : String).data, c.toNat < 128) ch h

/-- **C10 witness.** Every character of the serialization of a
Transcript containing a non-ASCII word is ASCII. -/
theorem C10_ascii_output_witness :
    (serializeTranscript (fun _ => "0") ⟨[⟨"café", 0, 1⟩]⟩).data.all
      (fun ch => decide (ch.toNat < 128)) = true :=
  List.all_eq_true.mpr fun ch hch =>
    decide_eq_true
      (C10_ascii_output.1 (fun _ => "0")
        (fun _ => (by decide : ∀ ch ∈ ("0" : String).data, ch.toNat < 128))
        ⟨[⟨"café", 0, 1⟩]⟩ ch hch)
